import Mathlib

/-!
Shallow embedding of the skribbl-words-tool word-collection manager.

`src/utils/word_handling.py` (the FileBackend `WordCollectionManager`) keeps a
JSON file holding a dict from collection name to list of words; every
operation reads the whole dict, mutates it and writes it back.
`src/utils/word_handling2.py` (the SheetBackend `WordCollectionManager`) keeps
a two-column table (collection_name, word), one row per word.

Python dicts are embedded as association lists (`Dataset`); in any state the
Python code can actually build, keys are unique, and the embedded operations
reproduce dict semantics exactly on such states (first-binding lookup,
in-place value replacement).  Each mutating operation returns the boolean the
Python method returns together with the dataset that gets persisted by
`_write_data` (the original dataset on the no-op paths, where nothing is
written).
-/

namespace Skribbl

/-- Python `str.lower()` as used by the duplicate checks: per-character
lowercasing (`Char.toLower` agrees with Python on ASCII). -/
def pyLower (s : String) : String := ⟨s.data.map Char.toLower⟩

/-- Lexicographic ≤ on char lists by code point: Python's `<=` on strings. -/
def charListLe : List Char → List Char → Bool
  | [], _ => true
  | _ :: _, [] => false
  | a :: as, b :: bs =>
    if a.toNat < b.toNat then true
    else if b.toNat < a.toNat then false
    else charListLe as bs

/-- Python string comparison `a <= b` (code-point lexicographic). -/
def strLe (a b : String) : Bool := charListLe a.data b.data

/-- `strLe` as a Prop-valued relation, for sortedness statements. -/
def strLeP (a b : String) : Prop := strLe a b = true

instance : DecidableRel strLeP :=
  fun a b => inferInstanceAs (Decidable (strLe a b = true))

instance : IsTotal String strLeP where
  total := by
    have key : ∀ (as bs : List Char),
        charListLe as bs = true ∨ charListLe bs as = true := by
      intro as
      induction as with
      | nil => intro bs; left; rfl
      | cons a as ih =>
        intro bs
        cases bs with
        | nil => right; rfl
        | cons b bs =>
          rcases Nat.lt_trichotomy a.toNat b.toNat with h | h | h
          · left; simp [charListLe, h]
          · rcases ih bs with h2 | h2
            · left; simp [charListLe, h, h2]
            · right; simp [charListLe, h.symm, h2]
          · right; simp [charListLe, h]
    intro a b
    exact key a.data b.data

instance : IsTrans String strLeP where
  trans := by
    have key : ∀ (as bs cs : List Char), charListLe as bs = true →
        charListLe bs cs = true → charListLe as cs = true := by
      intro as
      induction as with
      | nil => intro bs cs _ _; rfl
      | cons a as ih =>
        intro bs cs hab hbc
        cases bs with
        | nil => simp [charListLe] at hab
        | cons b bs =>
          cases cs with
          | nil => simp [charListLe] at hbc
          | cons c cs =>
            simp only [charListLe] at hab hbc ⊢
            by_cases h1 : a.toNat < b.toNat
            · by_cases h2 : b.toNat < c.toNat
              · simp [Nat.lt_trans h1 h2]
              · simp only [h2, if_false, if_neg] at hbc
                by_cases h3 : c.toNat < b.toNat
                · simp [h3] at hbc
                · have hbc' : b.toNat = c.toNat := by omega
                  simp [hbc' ▸ h1]
            · simp only [h1, if_false, if_neg] at hab
              by_cases h1' : b.toNat < a.toNat
              · simp [h1'] at hab
              · have hab' : a.toNat = b.toNat := by omega
                by_cases h2 : b.toNat < c.toNat
                · simp [hab' ▸ h2]
                · simp only [h2, if_false, if_neg] at hbc
                  by_cases h3 : c.toNat < b.toNat
                  · simp [h3] at hbc
                  · have hbc' : b.toNat = c.toNat := by omega
                    have : ¬ a.toNat < c.toNat := by omega
                    have : ¬ c.toNat < a.toNat := by omega
                    simp_all [charListLe]
                    exact ih bs cs hab hbc
    intro a b c
    exact key a.data b.data c.data

/-- Python `list.sort()` on a list of strings: the unique permutation that is
nondecreasing for code-point comparison (any correct sort, Python's Timsort
included, computes it; `insertionSort` is its executable embedding). -/
def pySort (l : List String) : List String := List.insertionSort strLeP l

/-- The in-memory form of the JSON file's top-level dict:
collection name → ordered list of words. -/
abbrev Dataset := List (String × List String)

/-- Python `collection_name in data` on the dict. -/
def dictMember (data : Dataset) (k : String) : Bool :=
  data.any (fun p => p.1 == k)

/-- Python `data[k]` / `data.get(k)`: value of the first (unique) binding. -/
def dictLookup (data : Dataset) (k : String) : Option (List String) :=
  (data.find? (fun p => p.1 == k)).map Prod.snd

/-- Python `data[k] = v`: replace the value of the existing binding of `k`
in place, or append a new binding at the end. -/
def dictInsert (data : Dataset) (k : String) (v : List String) : Dataset :=
  match data with
  | [] => [(k, v)]
  | p :: rest => if p.1 == k then (k, v) :: rest else p :: dictInsert rest k v

/-- `WordCollectionManager.add_collection` (word_handling.py, lines 63–81):
returns False without writing when the name is already a key, else binds the
name to an empty list and persists. -/
def add_collection (data : Dataset) (name : String) : Bool × Dataset :=
  if dictMember data name then (false, data)
  else (true, dictInsert data name [])

/-- `WordCollectionManager.add_word` (word_handling.py, lines 83–108):
returns False when the collection is missing or some stored word matches
case-insensitively; otherwise appends the word, sorts the list and persists. -/
def add_word (data : Dataset) (c w : String) : Bool × Dataset :=
  match dictLookup data c with
  | none => (false, data)
  | some ws =>
    if ws.any (fun ew => pyLower ew == pyLower w) then (false, data)
    else (true, dictInsert data c (pySort (ws ++ [w])))

/-- `WordCollectionManager.remove_word` (word_handling.py, lines 110–140):
finds the first stored word matching case-insensitively (`word_to_remove`),
then `if word_to_remove:` — Python truthiness, so a found empty string is
treated like not-found — removes that exact entry and persists. -/
def remove_word (data : Dataset) (c w : String) : Bool × Dataset :=
  match dictLookup data c with
  | none => (false, data)
  | some ws =>
    match ws.find? (fun ew => pyLower ew == pyLower w) with
    | none => (false, data)
    | some m =>
      if m == "" then (false, data)
      else (true, dictInsert data c (ws.erase m))

/-- `WordCollectionManager.get_all_collections` (word_handling.py, lines
142–150): `list(data.keys())`. -/
def get_all_collections (data : Dataset) : List String :=
  data.map Prod.fst

/-- `WordCollectionManager.get_words_in_collection` (word_handling.py):
`data.get(collection_name)`. -/
def get_words_in_collection (data : Dataset) (c : String) :
    Option (List String) :=
  dictLookup data c

/-! JSON values, for the file-level read/write behaviour of
`_read_data` / `_write_data`.  `json.load` can return any JSON value, not
only an object; `JValue` is that result domain. -/

/-- A parsed JSON value as returned by Python's `json.load`. -/
inductive JValue where
  | jnull : JValue
  | jbool : Bool → JValue
  | jnum : Int → JValue
  | jstr : String → JValue
  | jarr : List JValue → JValue
  | jobj : List (String × JValue) → JValue

/-- Whether a Python value returned by `json.load` is a dict. -/
def JValue.isObj : JValue → Bool
  | .jobj _ => true
  | _ => false

/-- The state of the backing file, at the granularity `json.load` sees:
missing (raises FileNotFoundError), text that is not valid JSON (raises
json.JSONDecodeError), or text that parses to a JSON value. -/
inductive FileState where
  | absent : FileState
  | malformed : FileState
  | parsed : JValue → FileState

/-- `WordCollectionManager._read_data` (word_handling.py, lines 36–50): returns
`json.load`'s result, and `{}` when `json.load` raises `JSONDecodeError` or
opening raises `FileNotFoundError`. -/
def readData : FileState → JValue
  | .absent => JValue.jobj []
  | .malformed => JValue.jobj []
  | .parsed v => v

/-- Serialization of a dataset as the JSON value `json.dump` writes:
an object mapping each collection name to an array of word strings. -/
def encodeDataset (d : Dataset) : JValue :=
  JValue.jobj (d.map (fun p => (p.1, JValue.jarr (p.2.map JValue.jstr))))

/-- `WordCollectionManager._write_data` (word_handling.py, lines 52–61):
`json.dump(data, f, indent=4)`.  The file afterwards holds valid JSON text
that `json.load` parses back to the dumped structure, so the file state is
modelled at that parsed level. -/
def writeData (d : Dataset) : FileState :=
  FileState.parsed (encodeDataset d)

/-- Reading a JSON array back as a Python list of word strings. -/
def decodeWords : List JValue → Option (List String)
  | [] => some []
  | JValue.jstr s :: rest => (decodeWords rest).map (fun ws => s :: ws)
  | _ => none

/-- Reading the entries of a JSON object back as a dataset. -/
def decodeEntries : List (String × JValue) → Option Dataset
  | [] => some []
  | (k, JValue.jarr xs) :: rest =>
    match decodeWords xs, decodeEntries rest with
    | some ws, some d => some ((k, ws) :: d)
    | _, _ => none
  | _ => none

/-- Interpreting a value returned by `json.load` as a dataset: it must be an
object whose values are arrays of strings. -/
def decodeDataset : JValue → Option Dataset
  | JValue.jobj kvs => decodeEntries kvs
  | _ => none

/-! The SheetBackend (`src/utils/word_handling2.py`): the worksheet is a list
of (collection_name, word) rows. -/

/-- One row per word: (collection_name, word). -/
abbrev SheetData := List (String × String)

/-- Outcome of `WordCollectionManager.add_word` in word_handling2.py,
by returned message (empty-argument error, duplicate error, success).
The remote-write-failure message is an external fault and is not modelled:
this is the behaviour when `conn.update` succeeds. -/
inductive SheetOutcome where
  | errEmpty : SheetOutcome
  | duplicate : SheetOutcome
  | added : SheetOutcome
deriving DecidableEq

/-- `WordCollectionManager.add_word` (word_handling2.py, lines 62–97): rejects
empty arguments, filters rows whose collection_name matches
case-insensitively (`df['collection_name'].str.lower() == collection_name.lower()`),
reports a duplicate when the word already appears there case-insensitively,
else appends one (collection_name, word) row to the whole table. -/
def sheet_add_word (rows : SheetData) (c w : String) :
    SheetOutcome × SheetData :=
  if c = "" ∨ w = "" then (SheetOutcome.errEmpty, rows)
  else
    let collRows := rows.filter (fun r => pyLower r.1 == pyLower c)
    if (collRows.map (fun r => pyLower r.2)).contains (pyLower w) then
      (SheetOutcome.duplicate, rows)
    else (SheetOutcome.added, rows ++ [(c, w)])

/-- `WordCollectionManager.get_all_collections` (word_handling2.py, lines
46–60): `df.groupby('collection_name').size().to_dict()` — each distinct
collection name (groupby sorts keys) with its row count. -/
def sheet_get_all_collections (rows : SheetData) : List (String × Nat) :=
  (pySort (rows.map Prod.fst).dedup).map
    (fun n => (n, rows.countP (fun r => r.1 == n)))

/-! Helper lemmas about the association-list embedding of Python dicts. -/

theorem dictLookup_cons (a : String) (v : List String) (rest : Dataset) (k : String) :
    dictLookup ((a, v) :: rest) k = if a = k then some v else dictLookup rest k := by
  by_cases h : a = k <;> simp [dictLookup, List.find?_cons, h]

theorem dictLookup_dictInsert_self (data : Dataset) (k : String) (v : List String) :
    dictLookup (dictInsert data k v) k = some v := by
  induction data with
  | nil => simp [dictInsert, dictLookup_cons]
  | cons p rest ih =>
    by_cases h : p.1 = k
    · simp [dictInsert, h, dictLookup_cons]
    · obtain ⟨a, vv⟩ := p
      simp only [] at h
      simp [dictInsert, h, dictLookup_cons, ih]

theorem dictLookup_dictInsert_ne (data : Dataset) (c k : String) (v : List String)
    (h : k ≠ c) : dictLookup (dictInsert data c v) k = dictLookup data k := by
  induction data with
  | nil => simp [dictInsert, dictLookup_cons, Ne.symm h, dictLookup]
  | cons p rest ih =>
    obtain ⟨a, vv⟩ := p
    by_cases hp : a = c
    · subst hp
      simp [dictInsert, dictLookup_cons, Ne.symm h]
    · simp only [dictInsert, beq_iff_eq, hp, if_false]
      rw [dictLookup_cons, dictLookup_cons]
      by_cases hk : a = k
      · simp [hk]
      · simp [hk, ih]

theorem dictMember_false_iff (data : Dataset) (k : String) :
    dictMember data k = false ↔ ∀ p ∈ data, p.1 ≠ k := by
  simp [dictMember, List.any_eq_false]

theorem dictInsert_of_not_mem (data : Dataset) (k : String) (v : List String)
    (h : dictMember data k = false) : dictInsert data k v = data ++ [(k, v)] := by
  induction data with
  | nil => simp [dictInsert]
  | cons p rest ih =>
    rw [dictMember_false_iff] at h
    have h1 : p.1 ≠ k := h p (by simp)
    have h2 : dictMember rest k = false :=
      (dictMember_false_iff rest k).mpr (fun q hq => h q (by simp [hq]))
    simp [dictInsert, h1, ih h2]

theorem dictMember_countP_zero (data : Dataset) (k : String)
    (h : dictMember data k = false) :
    data.countP (fun p => p.1 == k) = 0 := by
  rw [dictMember_false_iff] at h
  rw [List.countP_eq_zero]
  intro p hp
  simp [h p hp]

/-- In the SheetBackend's `add_word`, any stored row whose collection name and
word both match case-insensitively makes the call report a duplicate and
leave the table unchanged. -/
theorem sheet_add_word_duplicate (rows : SheetData) (c w : String)
    (hc : c ≠ "") (hw : w ≠ "") (c' ew : String) (hmem : (c', ew) ∈ rows)
    (hcl : pyLower c' = pyLower c) (hel : pyLower ew = pyLower w) :
    sheet_add_word rows c w = (SheetOutcome.duplicate, rows) := by
  have hcond : ¬(c = "" ∨ w = "") := by
    rintro (h | h) <;> [exact hc h; exact hw h]
  have hrow : (c', ew) ∈ rows.filter (fun r => pyLower r.1 == pyLower c) := by
    rw [List.mem_filter]
    exact ⟨hmem, by simp [hcl]⟩
  have hcont : ((rows.filter (fun r => pyLower r.1 == pyLower c)).map
      (fun r => pyLower r.2)).contains (pyLower w) = true := by
    rw [List.contains_eq_any_beq, List.any_eq_true]
    exact ⟨pyLower ew, List.mem_map.mpr ⟨(c', ew), hrow, rfl⟩, by simp [hel]⟩
  simp only [sheet_add_word, hcond, if_false, ite_false]
  rw [if_pos hcont]

end Skribbl
namespace Skribbl

/-- C1: in both backends, adding a word whose case-insensitive form already
appears in that collection reports the duplicate and leaves the persisted
state unchanged (FileBackend: returns False with the dataset untouched;
SheetBackend, on non-empty arguments as the operation contract requires:
returns the duplicate message with the table untouched), so after adding
"Cat" and then "cat" the collection holds exactly the one word "Cat",
first-inserted casing kept verbatim (see the witness). -/
theorem add_word_duplicate_noop :
    (∀ (data : Dataset) (c w : String) (ws : List String),
        dictLookup data c = some ws →
        (∃ ew ∈ ws, pyLower ew = pyLower w) →
        add_word data c w = (false, data)) ∧
    (∀ (rows : SheetData) (c w : String), c ≠ "" → w ≠ "" →
        (∃ ew, (c, ew) ∈ rows ∧ pyLower ew = pyLower w) →
        sheet_add_word rows c w = (SheetOutcome.duplicate, rows)) := by
  constructor
  · intro data c w ws hc hdup
    have hany : ws.any (fun ew => pyLower ew == pyLower w) = true := by
      obtain ⟨ew, hmem, hlow⟩ := hdup
      rw [List.any_eq_true]
      exact ⟨ew, hmem, by simp [hlow]⟩
    simp [add_word, hc, hany]
  · intro rows c w hc hw hdup
    obtain ⟨ew, hmem, hlow⟩ := hdup
    exact sheet_add_word_duplicate rows c w hc hw c ew hmem rfl hlow

/-- C1 witness: "Cat" then "cat" into collection "animals"; in each backend
the second add reports the duplicate and the stored spelling stays "Cat". -/
theorem add_word_duplicate_noop_witness :
    add_word [("animals", [])] "animals" "Cat" = (true, [("animals", ["Cat"])]) ∧
    add_word [("animals", ["Cat"])] "animals" "cat" = (false, [("animals", ["Cat"])]) ∧
    get_words_in_collection [("animals", ["Cat"])] "animals" = some ["Cat"] ∧
    sheet_add_word [("animals", "Cat")] "animals" "cat" =
      (SheetOutcome.duplicate, [("animals", "Cat")]) :=
  ⟨by decide,
   add_word_duplicate_noop.1 [("animals", ["Cat"])] "animals" "cat" ["Cat"]
     (by decide) ⟨"Cat", by decide, by decide⟩,
   by decide,
   add_word_duplicate_noop.2 [("animals", "Cat")] "animals" "cat"
     (by decide) (by decide) ⟨"Cat", by decide, by decide⟩⟩

/-- C2 counterexample: in `remove_word`, `if word_to_remove:` is Python
truthiness, so when the stored entry matching case-insensitively is the empty
string the method reports not-found and removes nothing — the claim's
"whenever such a stored entry exists, removes exactly that entry" fails. -/
theorem remove_word_empty_match_counterexample :
    (∃ ew ∈ [""], pyLower ew = pyLower "") ∧
    remove_word [("c", [""])] "c" "" = (false, [("c", [""])]) :=
  ⟨⟨"", by decide, by decide⟩, by decide⟩

/-- C2 (amended): when the first stored word matching case-insensitively is
non-empty, `remove_word` removes exactly that entry and persists; when no
stored word matches, or the matching stored entry is the empty string, it
reports not-found and leaves the dataset (hence the collection's word list)
unchanged. -/
theorem remove_word_spec (data : Dataset) (c w : String)
    (ws : List String) (hc : dictLookup data c = some ws) :
    (∀ m, ws.find? (fun ew => pyLower ew == pyLower w) = some m → m ≠ "" →
        remove_word data c w = (true, dictInsert data c (ws.erase m))) ∧
    (ws.find? (fun ew => pyLower ew == pyLower w) = none →
        remove_word data c w = (false, data)) ∧
    (ws.find? (fun ew => pyLower ew == pyLower w) = some "" →
        remove_word data c w = (false, data)) := by
  refine ⟨?_, ?_, ?_⟩
  · intro m hm hne
    simp [remove_word, hc, hm, hne]
  · intro hm
    simp [remove_word, hc, hm]
  · intro hm
    simp [remove_word, hc, hm]

/-- C2 witness: removing "cat" from a collection storing ["Cat"] removes the
entry "Cat"; removing from ["Dog"] reports not-found and changes nothing;
removing "" from a collection storing [""] matches the stored empty string
yet reports not-found and changes nothing. -/
theorem remove_word_spec_witness :
    remove_word [("c", ["Cat"])] "c" "cat" = (true, [("c", [])]) ∧
    remove_word [("d", ["Dog"])] "d" "cat" = (false, [("d", ["Dog"])]) ∧
    remove_word [("e", [""])] "e" "" = (false, [("e", [""])]) :=
  ⟨(remove_word_spec [("c", ["Cat"])] "c" "cat" ["Cat"] (by decide)).1
     "Cat" (by decide) (by decide),
   (remove_word_spec [("d", ["Dog"])] "d" "cat" ["Dog"] (by decide)).2.1
     (by decide),
   (remove_word_spec [("e", [""])] "e" "" [""] (by decide)).2.2
     (by decide)⟩

/-- C3: whenever `add_word` succeeds on a collection whose word list is
sorted, the stored list of that collection afterwards is still sorted for
code-point string order (the code appends and fully re-sorts). -/
theorem add_word_preserves_sorted (data : Dataset) (c w : String)
    (ws : List String) (d' : Dataset)
    (hc : dictLookup data c = some ws)
    (_hsorted : List.Sorted strLeP ws)
    (hadd : add_word data c w = (true, d')) :
    ∃ ws', dictLookup d' c = some ws' ∧ List.Sorted strLeP ws' := by
  by_cases hdup : ws.any (fun ew => pyLower ew == pyLower w) = true
  · simp [add_word, hc, hdup] at hadd
  · rw [Bool.not_eq_true] at hdup
    simp [add_word, hc, hdup] at hadd
    refine ⟨pySort (ws ++ [w]), ?_, ?_⟩
    · rw [← hadd]
      exact dictLookup_dictInsert_self data c (pySort (ws ++ [w]))
    · exact List.sorted_insertionSort strLeP (ws ++ [w])

/-- C3 witness: "banana" then "apple" into an initially empty collection;
the stored (and listed) result is the sorted ["apple", "banana"]. -/
theorem add_word_preserves_sorted_witness :
    add_word [("fruits", [])] "fruits" "banana" = (true, [("fruits", ["banana"])]) ∧
    add_word [("fruits", ["banana"])] "fruits" "apple" = (true, [("fruits", ["apple", "banana"])]) ∧
    get_words_in_collection [("fruits", ["apple", "banana"])] "fruits" = some ["apple", "banana"] ∧
    (∃ ws', dictLookup [("fruits", ["apple", "banana"])] "fruits" = some ws' ∧
        List.Sorted strLeP ws') :=
  ⟨by decide, by decide, by decide,
   add_word_preserves_sorted [("fruits", ["banana"])] "fruits" "apple"
     ["banana"] [("fruits", ["apple", "banana"])] (by decide)
     (List.sorted_singleton "banana") (by decide)⟩

/-- C4: creating a collection whose exact name is already a key is a no-op
reporting already-exists; otherwise the name is bound to an empty list at the
end of the dataset, and creating the same name twice leaves exactly one entry
for it. -/
theorem add_collection_spec (data : Dataset) (name : String) :
    (dictMember data name = true → add_collection data name = (false, data)) ∧
    (dictMember data name = false →
      add_collection data name = (true, data ++ [(name, [])]) ∧
      add_collection (data ++ [(name, [])]) name = (false, data ++ [(name, [])]) ∧
      (data ++ [(name, [])]).countP (fun p : String × List String => p.1 == name) = 1) := by
  constructor
  · intro h; simp [add_collection, h]
  · intro h
    refine ⟨?_, ?_, ?_⟩
    · simp [add_collection, h, dictInsert_of_not_mem data name [] h]
    · have hmem : dictMember (data ++ [(name, [])]) name = true := by
        simp [dictMember]
      simp [add_collection, hmem]
    · rw [List.countP_append, dictMember_countP_zero data name h]
      simp

/-- C4 witness: creating "movies" twice from the empty dataset; the second
call is a no-op and the dataset has exactly one "movies" entry. -/
theorem add_collection_spec_witness :
    add_collection [] "movies" = (true, [("movies", [])]) ∧
    add_collection [("movies", [])] "movies" = (false, [("movies", [])]) ∧
    ([("movies", [])] : Dataset).countP (fun p : String × List String => p.1 == "movies") = 1 := by
  have h := (add_collection_spec [] "movies").2 (by decide)
  exact ⟨h.1, h.2.1, h.2.2⟩


/-- C5 counterexample: the FileBackend's `get_all_collections` is
`list(data.keys())` — only names, no word counts.  Two datasets whose
collection "a" holds 0 resp. 1 words produce the identical output ["a"],
so the returned value cannot be (name, wordCount) entries. -/
theorem get_all_collections_no_counts_counterexample :
    get_all_collections [("a", [])] = ["a"] ∧
    get_all_collections [("a", ["x"])] = ["a"] ∧
    get_words_in_collection [("a", [])] "a" ≠ get_words_in_collection [("a", ["x"])] "a" := by
  refine ⟨by decide, by decide, by decide⟩

/-- C5 (amended): the FileBackend's `get_all_collections` returns exactly the
collection names (a name is listed iff it is a key of the dataset); only the
SheetBackend's `get_all_collections` pairs each known collection name with
its word count (the caller of the FileBackend recomputes counts itself via
`get_words_in_collection`). -/
theorem get_all_collections_amended :
    (∀ (data : Dataset) (name : String),
        name ∈ get_all_collections data ↔ dictMember data name = true) ∧
    (∀ (rows : SheetData) (name : String) (n : Nat),
        (name, n) ∈ sheet_get_all_collections rows ↔
          (name ∈ rows.map Prod.fst ∧
            n = rows.countP (fun r : String × String => r.1 == name))) := by
  constructor
  · intro data name
    simp [get_all_collections, dictMember, List.any_eq_true, List.mem_map]
  · intro rows name n
    unfold sheet_get_all_collections
    rw [List.mem_map]
    constructor
    · rintro ⟨a, ha, heq⟩
      rw [Prod.mk.injEq] at heq
      obtain ⟨rfl, rfl⟩ := heq
      refine ⟨?_, rfl⟩
      have h1 : a ∈ (rows.map Prod.fst).dedup :=
        (List.perm_insertionSort strLeP _).mem_iff.mp ha
      exact List.mem_dedup.mp h1
    · rintro ⟨hmem, rfl⟩
      refine ⟨name, ?_, rfl⟩
      exact (List.perm_insertionSort strLeP _).mem_iff.mpr (List.mem_dedup.mpr hmem)

/-- C6: `_read_data` returns whatever `json.load` parses.  A file holding the
valid JSON text "[1, 2]" parses to the list [1, 2], which `_read_data` passes
through unchanged — not a dict, contradicting the method's own docstring
("Returns: dict") and the claim; only an absent or unparsable file is
replaced by the empty dict. -/
theorem readData_nonobject :
    readData (FileState.parsed (JValue.jarr [JValue.jnum 1, JValue.jnum 2])) =
      JValue.jarr [JValue.jnum 1, JValue.jnum 2] ∧
    (readData (FileState.parsed (JValue.jarr [JValue.jnum 1, JValue.jnum 2]))).isObj = false ∧
    readData FileState.absent = JValue.jobj [] ∧
    readData FileState.malformed = JValue.jobj [] :=
  ⟨rfl, rfl, rfl, rfl⟩

/-- C7 counterexample: in the SheetBackend's `add_word` the duplicate filter
compares collection names case-insensitively
(`df['collection_name'].str.lower() == collection_name.lower()`), so with the
word "dog" stored under "Cat", adding "dog" under the distinct name "cat" is
reported as a duplicate — the two names are not treated as distinct
collections. -/
theorem sheet_add_word_case_counterexample :
    "Cat" ≠ "cat" ∧
    sheet_add_word [("Cat", "dog")] "cat" "dog" =
      (SheetOutcome.duplicate, [("Cat", "dog")]) :=
  ⟨by decide, by decide⟩

/-- C7 (amended): the FileBackend treats collection names case-sensitively — a
word stored under one name never blocks adding it under a differently-cased
existing name whose own list has no case-insensitive match; the SheetBackend's
`add_word` instead matches collection names case-insensitively in its
duplicate check, so a word stored under "Cat" is reported as a duplicate when
added under "cat". -/
theorem collection_identity_amended :
    (∀ (data : Dataset) (c1 c2 w : String) (ws1 ws2 : List String),
        c1 ≠ c2 →
        dictLookup data c1 = some ws1 → w ∈ ws1 →
        dictLookup data c2 = some ws2 →
        ws2.any (fun ew => pyLower ew == pyLower w) = false →
        (add_word data c2 w).1 = true) ∧
    (∀ (rows : SheetData) (c1 c2 w : String),
        pyLower c1 = pyLower c2 → c2 ≠ "" → w ≠ "" →
        (c1, w) ∈ rows →
        (sheet_add_word rows c2 w).1 = SheetOutcome.duplicate) := by
  constructor
  · intro data c1 c2 w ws1 ws2 _ _ _ h2 hno
    simp [add_word, h2, hno]
  · intro rows c1 c2 w hlow hc2 hw hmem
    rw [sheet_add_word_duplicate rows c2 w hc2 hw c1 w hmem hlow rfl]

/-- C7 witness: with "dog" under "Cat" and an empty collection "cat", the
FileBackend's add of "dog" under "cat" succeeds, while the SheetBackend
reports a duplicate for the same casing pair. -/
theorem collection_identity_amended_witness :
    (add_word [("Cat", ["dog"]), ("cat", [])] "cat" "dog").1 = true ∧
    (sheet_add_word [("Cat", "dog")] "cat" "dog").1 = SheetOutcome.duplicate :=
  ⟨collection_identity_amended.1 [("Cat", ["dog"]), ("cat", [])] "Cat" "cat"
     "dog" ["dog"] [] (by decide) (by decide) (by decide) (by decide) (by decide),
   collection_identity_amended.2 [("Cat", "dog")] "Cat" "cat" "dog"
     (by decide) (by decide) (by decide) (by decide)⟩

/-- C8: writing any dataset through `_write_data` and reading the file back
through `_read_data` yields the same mapping — the same collection names
bound, in order, to the same word sequences. -/
theorem write_read_roundtrip (d : Dataset) :
    decodeDataset (readData (writeData d)) = some d := by
  have hwords : ∀ ws : List String, decodeWords (ws.map JValue.jstr) = some ws := by
    intro ws
    induction ws with
    | nil => rfl
    | cons s rest ih => simp [decodeWords, ih]
  show decodeDataset (encodeDataset d) = some d
  induction d with
  | nil => rfl
  | cons p rest ih =>
    obtain ⟨k, ws⟩ := p
    simp only [encodeDataset, decodeDataset, List.map_cons, decodeEntries,
      hwords ws] at ih ⊢
    rw [ih]


/-- C9: on a collection satisfying the data-model invariant (no two stored
words equal case-insensitively), after one `remove_word` call an immediately
repeated call with the same arguments always reports not-found. -/
theorem remove_word_twice_not_found (data : Dataset) (c w : String)
    (ws : List String) (hc : dictLookup data c = some ws)
    (hinv : List.Pairwise (fun a b => pyLower a ≠ pyLower b) ws) :
    (remove_word (remove_word data c w).2 c w).1 = false := by
  cases hfind : ws.find? (fun ew => pyLower ew == pyLower w) with
  | none =>
    have h1 : remove_word data c w = (false, data) := by
      simp [remove_word, hc, hfind]
    rw [h1]
    simp [remove_word, hc, hfind]
  | some m =>
    by_cases hm : m = ""
    · have h1 : remove_word data c w = (false, data) := by
        simp [remove_word, hc, hfind, hm]
      rw [h1]
      simp [remove_word, hc, hfind, hm]
    · have h1 : remove_word data c w = (true, dictInsert data c (ws.erase m)) := by
        simp [remove_word, hc, hfind, hm]
      rw [h1]
      have h2 : dictLookup (dictInsert data c (ws.erase m)) c = some (ws.erase m) :=
        dictLookup_dictInsert_self data c (ws.erase m)
      have hmlow : pyLower m = pyLower w := by
        have := List.find?_some hfind
        simpa using this
      have hnodup : ws.Nodup := by
        refine hinv.imp ?_
        intro a b hab heq
        exact hab (heq ▸ rfl)
      have hsymm : Symmetric (fun a b : String => pyLower a ≠ pyLower b) :=
        fun a b hab => fun he => hab he.symm
      have hnone : (ws.erase m).find? (fun ew => pyLower ew == pyLower w) = none := by
        rw [List.find?_eq_none]
        intro x hx
        have hxws : x ∈ ws := List.mem_of_mem_erase hx
        simp only [beq_iff_eq]
        intro hxl
        by_cases hxm : x = m
        · subst hxm
          exact (List.Nodup.not_mem_erase hnodup) hx
        · have hmws : m ∈ ws := List.mem_of_find?_eq_some hfind
          have : pyLower x ≠ pyLower m := hinv.forall hsymm hxws hmws hxm
          exact this (by rw [hxl, hmlow])
      simp [remove_word, h2, hnone]

/-- C9 witness: remove "cat" twice from a collection storing ["Cat"]; the
second call reports not-found. -/
theorem remove_word_twice_not_found_witness :
    (remove_word (remove_word [("c", ["Cat"])] "c" "cat").2 "c" "cat").1 = false :=
  remove_word_twice_not_found [("c", ["Cat"])] "c" "cat" ["Cat"] (by decide)
    (by simp)

/-- C10: every FileBackend mutation — `add_collection c`, `add_word c w`,
`remove_word c w` — leaves the word list stored under any other collection
name unchanged in the persisted dataset, whatever the operation's outcome. -/
theorem mutations_frame (data : Dataset) (c w k : String) (hk : k ≠ c) :
    dictLookup (add_collection data c).2 k = dictLookup data k ∧
    dictLookup (add_word data c w).2 k = dictLookup data k ∧
    dictLookup (remove_word data c w).2 k = dictLookup data k := by
  refine ⟨?_, ?_, ?_⟩
  · by_cases h : dictMember data c
    · simp [add_collection, h]
    · simp [add_collection, h, dictLookup_dictInsert_ne data c k [] hk]
  · cases hlk : dictLookup data c with
    | none => simp [add_word, hlk]
    | some ws =>
      by_cases hdup : ws.any (fun ew => pyLower ew == pyLower w) = true
      · simp [add_word, hlk, hdup]
      · rw [Bool.not_eq_true] at hdup
        simp [add_word, hlk, hdup,
          dictLookup_dictInsert_ne data c k (pySort (ws ++ [w])) hk]
  · cases hlk : dictLookup data c with
    | none => simp [remove_word, hlk]
    | some ws =>
      cases hfind : ws.find? (fun ew => pyLower ew == pyLower w) with
      | none => simp [remove_word, hlk, hfind]
      | some m =>
        by_cases hm : m = ""
        · simp [remove_word, hlk, hfind, hm]
        · simp [remove_word, hlk, hfind, hm,
            dictLookup_dictInsert_ne data c k (ws.erase m) hk]

/-- C10 witness: each of the three mutations aimed at collection "b" leaves
the stored word list of collection "a" unchanged. -/
theorem mutations_frame_witness :
    dictLookup (add_collection [("a", ["x"]), ("b", ["y"])] "b").2 "a" =
      dictLookup [("a", ["x"]), ("b", ["y"])] "a" ∧
    dictLookup (add_word [("a", ["x"]), ("b", ["y"])] "b" "y").2 "a" =
      dictLookup [("a", ["x"]), ("b", ["y"])] "a" ∧
    dictLookup (remove_word [("a", ["x"]), ("b", ["y"])] "b" "y").2 "a" =
      dictLookup [("a", ["x"]), ("b", ["y"])] "a" :=
  mutations_frame [("a", ["x"]), ("b", ["y"])] "b" "y" "a" (by decide)

end Skribbl
